import Mathlib

/-
Shallow embedding of the SetLog seeding script
(src/scripts/db_scripts/db_population/populate_database.py) and the parts of
the data model (src/models) that its invariants refer to.

Modelling conventions:
* Python's global `random` module is modelled by an explicit state `Rnd`
  carrying two abstract streams: `g` backs the integer draws
  (randint / choice / sample) and `q` backs the real-valued draws (uniform).
  Each draw is mapped into the requested range, so every drawn value lies in
  the range the library guarantees, for every stream.
* `uuid.uuid4()` is modelled by a fresh-counter supply `nextId`, which yields
  pairwise distinct identifiers; identifiers are natural numbers.
* Python real arithmetic is modelled exactly on ℚ.  `round(x, 1)` is
  round-half-to-even at one decimal, on exact rationals.
* Timestamps are integer seconds since an epoch fixed at a Monday 00:00:00,
  so `datetime.weekday()` (Monday = 0) becomes `(t.fdiv 86400).emod 7`.
  Microseconds are dropped: the generated times of day lie in
  [06:00:00, 20:59:59], so the sub-second part of `datetime.now()` can never
  move a value of `timedelta.days` across a day boundary, and none of the
  modelled quantities depend on it.
* Python's `hash(str(user_id))`, fixed within one run, is modelled by an
  arbitrary function parameter `uh : Nat → Int`.
-/

namespace SetLog

/-- Abstract random source plus the uuid4 fresh-identifier supply. -/
structure Rnd where
  g : Nat → Nat
  q : Nat → ℚ
  gi : Nat
  qi : Nat
  nextId : Nat

/-- Consume one integer-stream value. -/
def drawN (s : Rnd) : Nat × Rnd := (s.g s.gi, { s with gi := s.gi + 1 })

/-- Consume one real-stream value. -/
def drawQ (s : Rnd) : ℚ × Rnd := (s.q s.qi, { s with qi := s.qi + 1 })

/-- Obtain a fresh identifier (models `uuid.uuid4()`). -/
def freshId (s : Rnd) : Nat × Rnd := (s.nextId, { s with nextId := s.nextId + 1 })

/-- Models `random.randint lo hi` (both bounds inclusive; every call site of the
script uses non-negative bounds).  The abstract stream value is reduced into
the requested range. -/
def randN (lo hi : Nat) (s : Rnd) : Nat × Rnd :=
  let p := drawN s
  (lo + p.1 % (hi + 1 - lo), p.2)

/-- Clamp into [0, 1] (kernel-reducible: comparisons via `Rat.blt`). -/
def clamp01 (t : ℚ) : ℚ := if Rat.blt t 0 then 0 else if Rat.blt 1 t then 1 else t

/-- Models `random.uniform lo hi`: the abstract stream value, clamped into [0,1],
scaled into [lo, hi]. -/
def uniformQ (lo hi : ℚ) (s : Rnd) : ℚ × Rnd :=
  let p := drawQ s
  (lo + (hi - lo) * clamp01 p.1, p.2)

/-- Models `random.choice l` for a nonempty `l`; the default is never selected when
`l ≠ []` because the index is reduced modulo `l.length`. -/
def chooseFrom (l : List α) (dflt : α) (s : Rnd) : α × Rnd :=
  let p := drawN s
  (l.getD (p.1 % l.length) dflt, p.2)

/-- Helper for `random.sample`: draw `k` elements without replacement by
repeatedly removing the drawn position. -/
def sampleAux (dflt : α) : Nat → List α → Rnd → List α × Rnd
  | 0, _, s => ([], s)
  | _ + 1, [], s => ([], s)
  | k + 1, x :: xs, s =>
    let p := drawN s
    let i := p.1 % (x :: xs).length
    let r := sampleAux dflt k ((x :: xs).eraseIdx i) p.2
    ((x :: xs).getD i dflt :: r.1, r.2)

/-- Models `random.sample l k` (the script always calls it with `k ≤ l.length`). -/
def sample (l : List α) (k : Nat) (dflt : α) (s : Rnd) : List α × Rnd :=
  sampleAux dflt k l s

/-- Models `datetime.weekday()` on a timestamp in seconds (epoch is a Monday,
Monday = 0, matching Python). -/
def weekday (t : Int) : Int := (t.fdiv 86400).emod 7

/-- Midnight of the calendar day containing `t`. -/
def midnightOf (t : Int) : Int := t - t.emod 86400

/-- Round to the nearest integer, ties to even (Python's `round`). -/
def roundHalfEven (x : ℚ) : Int :=
  let n := x.floor
  let f := x - n
  if Rat.blt f (1/2) then n
  else if Rat.blt (1/2) f then n + 1
  else if n % 2 = 0 then n else n + 1

/-- Python `round(x, 1)`, on exact rationals. -/
def round1 (x : ℚ) : ℚ := (roundHalfEven (10 * x) : ℚ) / 10

/-- The `base_weights` dictionary of `generate_realistic_weight`
(populate_database.py lines 334-370), in source order. -/
def base_weights : List (String × Nat) :=
  [("squat", 80), ("deadlift", 100), ("barbell-bench-press", 70),
   ("overhead-press", 40), ("barbell-row", 60), ("front-squat", 60),
   ("romanian-deadlift", 80),
   ("incline-bench-press", 50), ("dumbbell-bench-press", 25),
   ("dumbbell-row", 20), ("lateral-raises", 8), ("bicep-curls", 12),
   ("tricep-dips", 0), ("pull-ups", 0), ("dips", 0), ("push-ups", 0),
   ("leg-press", 100), ("leg-curls", 20), ("leg-extensions", 15),
   ("calf-raises", 30), ("shoulder-press", 25), ("hammer-curls", 10),
   ("tricep-pushdowns", 15), ("skull-crushers", 12),
   ("plank", 0), ("mountain-climbers", 0), ("burpees", 0), ("box-jumps", 0),
   ("jumping-jacks", 0), ("high-knees", 0), ("jumping-squats", 0)]

/-- Models `base_weights.get(exercise_slug, 20)`. -/
def baseWeightFor (slug : String) : Nat :=
  ((base_weights.find? (fun p => p.1 == slug)).map Prod.snd).getD 20

/-- Models `generate_realistic_weight(exercise_slug, user_id)`
(populate_database.py lines 331-387).  `uh` models `hash ∘ str` on the user
identifier; the uniform jitter stream is consumed only on the non-bodyweight
path, as in the source (the bodyweight case returns before `random.uniform`
runs). -/
def generate_realistic_weight (uh : Nat → Int) (slug : String) (uid : Nat)
    (s : Rnd) : ℚ × Rnd :=
  let base : ℚ := baseWeightFor slug
  if base = 0 then (0, s)
  else
    let user_hash := (uh uid).emod 3
    let user_variation : ℚ := user_hash * (1/5)
    let weight_multiplier : ℚ := 3/5 + user_variation
    let p := uniformQ (4/5) (6/5) s
    (round1 (base * weight_multiplier * p.1), p.2)

/-- The strength-tier of a user, as computed inside
`generate_realistic_weight`: `hash(str(user_id)) % 3`. -/
def userTier (uh : Nat → Int) (uid : Nat) : Int := (uh uid).emod 3

/-- Reference weight model, stated from the spec's words (§4.2 step 6 /
claim C4): category-table base with default 20 kg, bodyweight exercises
return 0 immediately, otherwise base · (0.6 + 0.2·tier) · jitter rounded to
one decimal place. -/
def weightSpecModel (slug : String) (tier : Int) (jitter : ℚ) : ℚ :=
  let base : ℚ := baseWeightFor slug
  if base = 0 then 0
  else round1 (base * (3/5 + 1/5 * tier) * jitter)

/-- Slug lists of `generate_realistic_reps` (lines 393-412), source order. -/
def compoundSlugs : List String :=
  ["squat", "deadlift", "barbell-bench-press", "overhead-press", "barbell-row"]

def isolationSlugs : List String :=
  ["bicep-curls", "tricep-dips", "lateral-raises", "calf-raises"]

def enduranceSlugs : List String :=
  ["plank", "mountain-climbers", "burpees"]

/-- Models `generate_realistic_reps(exercise_slug, set_num, total_sets)`
(populate_database.py lines 390-421). -/
def generate_realistic_reps (slug : String) (set_num total_sets : Nat)
    (s : Rnd) : Nat × Rnd :=
  let p :=
    if compoundSlugs.contains slug then randN 3 8 s
    else if isolationSlugs.contains slug then randN 8 15 s
    else if enduranceSlugs.contains slug then randN 10 30 s
    else randN 5 12 s
  let p2 :=
    if total_sets / 2 < set_num then
      let q := randN 1 3 p.2
      (max 1 (p.1 - q.1), q.2)
    else p
  (max 1 p2.1, p2.2)

/-- The coarse slug categories named by the spec (§4.2 step 7). -/
inductive RepCategory
  | compound
  | isolation
  | endurance
  | unclassified
  deriving DecidableEq

/-- Spec-side category classification of a slug. -/
def repCategoryOf (slug : String) : RepCategory :=
  if compoundSlugs.contains slug then .compound
  else if isolationSlugs.contains slug then .isolation
  else if enduranceSlugs.contains slug then .endurance
  else .unclassified

/-- Base rep range per category, per the spec's words. -/
def repRange : RepCategory → Nat × Nat
  | .compound => (3, 8)
  | .isolation => (8, 15)
  | .endurance => (10, 30)
  | .unclassified => (5, 12)

/-- Reference rep model, stated from the spec's words (§4.2 step 7 /
claim C5): base drawn uniformly from the category range; if the set number
lies in the second half (`set_number > total_sets // 2`), subtract a random
integer in [1,3], floored at 1. -/
def repsSpecModel (slug : String) (set_number total_sets : Nat)
    (s : Rnd) : Nat × Rnd :=
  let r := repRange (repCategoryOf slug)
  let p := randN r.1 r.2 s
  if total_sets / 2 < set_number then
    let q := randN 1 3 p.2
    (max 1 (p.1 - q.1), q.2)
  else p

/- ------------------------------------------------------------------
Data model (src/models), restricted to the attributes the seeding script
reads or writes.  Identifiers are naturals (uuid4 values in the source).
------------------------------------------------------------------- -/

structure User where
  id : Nat
  deriving DecidableEq, Repr

structure Exercise where
  id : Nat
  slug : String
  deriving DecidableEq, Repr

structure ProgramEntry where
  id : Nat
  program_id : Nat
  exercise_id : Nat
  day_of_week : Int
  position : Nat
  deriving DecidableEq, Repr

structure Program where
  id : Nat
  entries : List ProgramEntry
  deriving DecidableEq, Repr

/-- Assignment record; `start_date` is stored as a "YYYY-MM-DD" string in the source; here it is
the midnight timestamp of that calendar date. -/
structure UserProgram where
  id : Nat
  user_id : Nat
  program_id : Nat
  start_date : Int
  active : Bool
  deriving DecidableEq, Repr

/-- Models `models.Session` (src/models/session.py lines 90-167); `started_at` and
`ended_at` are "YYYY-MM-DD HH:MM:SS" strings in the source, here timestamps
at second resolution. -/
structure Session where
  id : Nat
  user_id : Nat
  user_program_id : Option Nat
  prog_week_index : Option Int
  prog_day_of_week : Option Int
  started_at : Int
  ended_at : Int
  deriving DecidableEq, Repr

/-- Models `models.Set` (src/models/session.py lines 170-253); named `SetRec`
because `Set` is taken in Lean. -/
structure SetRec where
  id : Nat
  session_id : Nat
  exercise_id : Nat
  set_index : Nat
  reps : Nat
  weight_kg : ℚ
  rpe : Option ℚ
  deriving DecidableEq, Repr

/-- What the synthesizer hands to the persistence gateway, in order:
`session.add(session_obj)`, `session.add(set_obj)`, `session.commit()`. -/
inductive Ev
  | sess (sd : Session)
  | set (r : SetRec)
  | commit
  deriving DecidableEq, Repr

def defaultExercise : Exercise := ⟨0, ""⟩

def defaultProgram : Program := ⟨0, []⟩

def defaultUserProgram : UserProgram := ⟨0, 0, 0, 0, false⟩

/-- Models `next(p for p in programs if p.id == user_program.program_id)`
(line 216).  The Python generator raises when no program matches; the script
only reaches it with identifiers of previously created programs, so the
default stands in for the impossible case. -/
def findProgram (programs : List Program) (pid : Nat) : Program :=
  (programs.find? (fun p => p.id == pid)).getD defaultProgram

/-- Models `next(ex for ex in exercises if ex.id == program_entry.exercise_id)`
(lines 260-262), same remark as `findProgram`. -/
def findExercise (exercises : List Exercise) (eid : Nat) : Exercise :=
  (exercises.find? (fun e => e.id == eid)).getD defaultExercise

/-- The rpe draw (lines 268-274): Python evaluates both `randint` calls while
building the 3-element list, then `random.choice` picks one of its slots. -/
def drawRpe (s : Rnd) : Option ℚ × Rnd :=
  let a := randN 6 10 s
  let b := randN 6 9 a.2
  let c := drawN b.2
  let v : Option ℚ :=
    if c.1 % 3 = 0 then none
    else if c.1 % 3 = 1 then some (a.1 : ℚ)
    else some ((b.1 : ℚ) + 1/2)
  (v, c.2)

/-- The inner `for set_num in range(1, num_sets + 1)` loop (lines 265-285
and 297-317), identical on the program-based and freeform paths: weight,
reps and rpe are drawn in that order and one `.set` event is emitted per
set, with `set_index = set_num`. -/
def setLoop (uh : Nat → Int) (slug : String) (uid exid sid total : Nat) :
    Nat → Nat → Rnd → List Ev × Rnd
  | 0, _, s => ([], s)
  | remaining + 1, set_num, s =>
    let w := generate_realistic_weight uh slug uid s
    let r := generate_realistic_reps slug set_num total w.2
    let e := drawRpe r.2
    let idp := freshId e.2
    let rest := setLoop uh slug uid exid sid total remaining (set_num + 1) idp.2
    (Ev.set ⟨idp.1, sid, exid, set_num, r.1, w.1, e.1⟩ :: rest.1, rest.2)

/-- Program-based sets (lines 259-286): one block of `randint(3, 6)` sets per
`ProgramEntry` scheduled for the day, in stored order. -/
def progSets (uh : Nat → Int) (exercises : List Exercise) (uid sid : Nat) :
    List ProgramEntry → Rnd → List Ev × Rnd
  | [], s => ([], s)
  | pe :: rest, s =>
    let ex := findExercise exercises pe.exercise_id
    let np := randN 3 6 s
    let evs := setLoop uh ex.slug uid ex.id sid np.1 np.1 1 np.2
    let r := progSets uh exercises uid sid rest evs.2
    (evs.1 ++ r.1, r.2)

/-- Freeform per-exercise loop (lines 294-318): `randint(2, 5)` sets per
selected exercise. -/
def freeSetsLoop (uh : Nat → Int) (uid sid : Nat) :
    List Exercise → Rnd → List Ev × Rnd
  | [], s => ([], s)
  | ex :: rest, s =>
    let np := randN 2 5 s
    let evs := setLoop uh ex.slug uid ex.id sid np.1 np.1 1 np.2
    let r := freeSetsLoop uh uid sid rest evs.2
    (evs.1 ++ r.1, r.2)

/-- Freeform sets (lines 288-318): `randint(3, 8)` exercises sampled without
replacement (capped at the catalog size), then the per-exercise loop. -/
def freeSets (uh : Nat → Int) (exercises : List Exercise) (uid sid : Nat)
    (s : Rnd) : List Ev × Rnd :=
  let ne := randN 3 8 s
  let sel := sample exercises (min ne.1 exercises.length) defaultExercise ne.2
  freeSetsLoop uh uid sid sel.1 sel.2

/-- Per-user context of the draft loop: the user, the catalogs, and
`user_active_programs` (the user's active assignments, line 199-201). -/
structure Ctx where
  uh : Nat → Int
  uid : Nat
  exercises : List Exercise
  programs : List Program
  ups : List UserProgram
  now : Int

/-- The draft timestamp (lines 189, 205-208): `now - 365 days + k days`,
with the hour and minute replaced and the seconds of `now` retained. -/
def workoutTs (now : Int) (k h m : Nat) : Int :=
  midnightOf now + ((k : Int) - 365) * 86400 + (h : Int) * 3600
    + (m : Int) * 60 + now.emod 60

/-- One iteration of the draft-session loop of
`generate_realistic_workout_data` (lines 203-325): date/time draws, the
program-or-freeform coin, the day-skip test, session and set emission, the
accepted-session counter `c` (`sessions_created`), and the every-100th
checkpoint commit (lines 320-325). -/
def processDraft (ctx : Ctx) (c : Nat) (s : Rnd) : List Ev × Nat × Rnd :=
  let kp := randN 0 365 s
  let hp := randN 6 20 kp.2
  let mp := randN 0 59 hp.2
  let wd := workoutTs ctx.now kp.1 hp.1 mp.1
  let coin := drawN mp.2
  let useProg := coin.1 % 2 == 0 && !ctx.ups.isEmpty
  if useProg then
    let upp := chooseFrom ctx.ups defaultUserProgram coin.2
    let program := findProgram ctx.programs upp.1.program_id
    let weeks := ((wd - upp.1.start_date).fdiv 86400).fdiv 7
    let dow := weekday wd
    let day_exercises := program.entries.filter (fun pe => pe.day_of_week == dow)
    if day_exercises.isEmpty then ([], c, upp.2)
    else
      let idp := freshId upp.2
      let dur := uniformQ (1/2) 2 idp.2
      let sd : Session :=
        ⟨idp.1, ctx.uid, some upp.1.id, some weeks, some dow, wd,
         wd + (3600 * dur.1).floor⟩
      let sets := progSets ctx.uh ctx.exercises ctx.uid idp.1 day_exercises dur.2
      (Ev.sess sd :: sets.1 ++ (if (c + 1) % 100 == 0 then [Ev.commit] else []),
       c + 1, sets.2)
  else
    let idp := freshId coin.2
    let dur := uniformQ (1/2) 2 idp.2
    let sd : Session :=
      ⟨idp.1, ctx.uid, none, none, none, wd, wd + (3600 * dur.1).floor⟩
    let sets := freeSets ctx.uh ctx.exercises ctx.uid idp.1 dur.2
    (Ev.sess sd :: sets.1 ++ (if (c + 1) % 100 == 0 then [Ev.commit] else []),
     c + 1, sets.2)

/-- Models `for _ in range(num_workouts)` (line 203). -/
def draftLoop (ctx : Ctx) : Nat → Nat → Rnd → List Ev × Nat × Rnd
  | 0, c, s => ([], c, s)
  | n + 1, c, s =>
    let d := processDraft ctx c s
    let r := draftLoop ctx n d.2.1 d.2.2
    (d.1 ++ r.1, r.2)

/-- Models `for user in users` (lines 192-203): frequency draw, expected session
count `int(365 * f / 7)`, the user's active assignments, then the draft
loop; the accepted-session counter threads across users. -/
def userLoop (uh : Nat → Int) (exercises : List Exercise)
    (programs : List Program) (user_programs : List UserProgram) (now : Int) :
    List User → Nat → Rnd → List Ev × Nat × Rnd
  | [], c, s => ([], c, s)
  | u :: rest, c, s =>
    let fp := uniformQ (5/2) (9/2) s
    let num_workouts := (365 * fp.1 / 7 : ℚ).floor.toNat
    let ups_u := user_programs.filter (fun up => up.user_id == u.id && up.active)
    let ctx : Ctx := ⟨uh, u.id, exercises, programs, ups_u, now⟩
    let d := draftLoop ctx num_workouts c fp.2
    let r := userLoop uh exercises programs user_programs now rest d.2.1 d.2.2
    (d.1 ++ r.1, r.2)

/-- Models `generate_realistic_workout_data(session, users, exercises, programs,
user_programs)` (lines 181-328): the user loop starting from
`sessions_created = 0`, followed by the final unconditional commit
(line 327). -/
def generate_realistic_workout_data (uh : Nat → Int) (users : List User)
    (exercises : List Exercise) (programs : List Program)
    (user_programs : List UserProgram) (now : Int) (s : Rnd) :
    List Ev × Nat × Rnd :=
  let r := userLoop uh exercises programs user_programs now users 0 s
  (r.1 ++ [Ev.commit], r.2)

/-- Inner loop of `create_user_programs` (lines 162-174): per assigned
program, a start date `now - randint(30, 365)` days (date only, midnight),
and a fair-coin `active` flag. -/
def createAssignmentsFor (now : Int) (uid : Nat) :
    List Program → Rnd → List UserProgram × Rnd
  | [], s => ([], s)
  | p :: rest, s =>
    let rp := randN 30 365 s
    let ap := drawN rp.2
    let idp := freshId ap.2
    let up : UserProgram :=
      ⟨idp.1, uid, p.id, midnightOf now - (rp.1 : Int) * 86400, ap.1 % 2 == 0⟩
    let r := createAssignmentsFor now uid rest idp.2
    (up :: r.1, r.2)

/-- Outer loop of `create_user_programs` (lines 157-160):
`random.sample(programs, min(randint(1, 3), len(programs)))` per user. -/
def createUserProgramsLoop (now : Int) (programs : List Program) :
    List User → Rnd → List UserProgram × Rnd
  | [], s => ([], s)
  | u :: rest, s =>
    let np := randN 1 3 s
    let sel := sample programs (min np.1 programs.length) defaultProgram np.2
    let a := createAssignmentsFor now u.id sel.1 sel.2
    let r := createUserProgramsLoop now programs rest a.2
    (a.1 ++ r.1, r.2)

/-- Models `create_user_programs(session, users, programs)` (lines 152-178). -/
def create_user_programs (now : Int) (users : List User)
    (programs : List Program) (s : Rnd) : List UserProgram × Rnd :=
  createUserProgramsLoop now programs users s

/- ------------------------------------------------------------------
Trace observations.
------------------------------------------------------------------- -/

def sessionsOf (tr : List Ev) : List Session :=
  tr.filterMap (fun e => match e with | Ev.sess sd => some sd | _ => none)

def setsOf (tr : List Ev) : List SetRec :=
  tr.filterMap (fun e => match e with | Ev.set r => some r | _ => none)

def isSetEv : Ev → Bool
  | Ev.set _ => true
  | _ => false

/-- The trace restricted to session and commit events. -/
def filterSC (tr : List Ev) : List Ev := tr.filter (fun e => !isSetEv e)

/-- The `(session_id, exercise_id, set_index)` key whose uniqueness the data
model declares (`uq_set_session_exercise_index`, src/models/session.py
lines 238-244). -/
def setKey (r : SetRec) : Nat × Nat × Nat := (r.session_id, r.exercise_id, r.set_index)

/-- Checkpoint-commit discipline over a session/commit trace: scanning with
the accepted-session counter `c`, a commit follows a session exactly when
the incremented counter is a multiple of 100, and appears nowhere else. -/
def commitsOk : Nat → List Ev → Bool
  | _, [] => true
  | c, Ev.sess _ :: Ev.commit :: tr => (c + 1) % 100 == 0 && commitsOk (c + 1) tr
  | c, Ev.sess _ :: tr => ((c + 1) % 100 != 0) && commitsOk (c + 1) tr
  | _, Ev.commit :: _ => false
  | _, Ev.set _ :: _ => false

/-- Shape invariant of generated sessions: fully freeform (all three program
fields absent) or fully program-based, with the denormalized week/day fields
computed from the referenced assignment and `started_at`. -/
def SessOKG (gups : List UserProgram) (sd : Session) : Prop :=
  (sd.user_program_id = none ∧ sd.prog_week_index = none ∧
    sd.prog_day_of_week = none) ∨
  (∃ up ∈ gups, sd.user_program_id = some up.id ∧
    sd.prog_week_index =
      some (((sd.started_at - up.start_date).fdiv 86400).fdiv 7) ∧
    sd.prog_day_of_week = some (weekday sd.started_at))

/- ------------------------------------------------------------------
Fixture-loading pipeline (create_users, create_exercises, create_programs
and the stage sequencing of main, lines 65-149 and 424-459), with the
persistence gateway's transaction made explicit: committed entities persist,
pending entities are lost on rollback.
------------------------------------------------------------------- -/

namespace SeedRun

/-- Fixture records per spec §6; the JSON fixture files themselves are not
under src/.  Attributes the claims never touch (descriptions, muscle lists,
passwords) are omitted. -/
structure UserFixture where
  email : String
  deriving DecidableEq, Repr

structure ExerciseFixture where
  slug : String
  deriving DecidableEq, Repr

structure EntryFixture where
  exercise_slug : String
  day_of_week : Int
  position : Nat
  deriving DecidableEq, Repr

structure ProgramFixture where
  name : String
  entries : List EntryFixture
  deriving DecidableEq, Repr

/-- Entities as handed to the gateway by the first three stages. -/
inductive Entity
  | user (id : Nat) (email : String)
  | exercise (id : Nat) (slug : String) (created_by : Nat)
  | program (id : Nat) (name : String)
  | entry (id : Nat) (program_id : Nat) (exercise_id : Nat)
      (day_of_week : Int) (position : Nat)
  deriving DecidableEq, Repr

/-- Gateway transaction state. -/
structure Tx where
  committed : List Entity
  pending : List Entity
  deriving DecidableEq, Repr

/-- Models `session.add(...)`. -/
def insertE (e : Entity) (t : Tx) : Tx := { t with pending := t.pending ++ [e] }

/-- Models `session.commit()`. -/
def commitTx (t : Tx) : Tx := ⟨t.committed ++ t.pending, []⟩

/-- Models `session.rollback()`. -/
def rollbackTx (t : Tx) : Tx := ⟨t.committed, []⟩

def isUserE : Entity → Bool
  | .user .. => true
  | _ => false

def isExerciseE : Entity → Bool
  | .exercise .. => true
  | _ => false

/-- Insert loop of `create_users` (lines 71-78); password hashing has no
observable effect on the claims and is dropped. -/
def createUsersLoop : List UserFixture → Tx → Rnd → List Nat × Tx × Rnd
  | [], t, s => ([], t, s)
  | u :: rest, t, s =>
    let idp := freshId s
    let r := createUsersLoop rest (insertE (.user idp.1 u.email) t) idp.2
    (idp.1 :: r.1, r.2)

/-- Models `create_users` (lines 65-82): insert every user, then commit. -/
def create_users (fx : List UserFixture) (t : Tx) (s : Rnd) :
    List Nat × Tx × Rnd :=
  let r := createUsersLoop fx t s
  (r.1, commitTx r.2.1, r.2.2)

/-- Insert loop of `create_exercises` (lines 91-104): a random creator is
drawn per exercise; the result list carries (id, slug), the data
`create_programs` later keys on. -/
def createExercisesLoop (users : List Nat) :
    List ExerciseFixture → Tx → Rnd → List (Nat × String) × Tx × Rnd
  | [], t, s => ([], t, s)
  | e :: rest, t, s =>
    let cb := chooseFrom users 0 s
    let idp := freshId cb.2
    let r := createExercisesLoop users rest
      (insertE (.exercise idp.1 e.slug cb.1) t) idp.2
    ((idp.1, e.slug) :: r.1, r.2)

/-- Models `create_exercises` (lines 85-108): insert every exercise, then commit. -/
def create_exercises (fx : List ExerciseFixture) (users : List Nat)
    (t : Tx) (s : Rnd) : List (Nat × String) × Tx × Rnd :=
  let r := createExercisesLoop users fx t s
  (r.1, commitTx r.2.1, r.2.2)

/-- Entry loop of `create_programs` (lines 134-143):
`exercise_lookup[entry_data["exercise_slug"]]` raises `KeyError` when the
slug is absent from the exercise fixture (line 135); the error carries the
transaction state at the moment of the raise. -/
def createEntriesLoop (lookup : List (Nat × String)) (pid : Nat) :
    List EntryFixture → Tx → Rnd → Except (String × Tx) (Tx × Rnd)
  | [], t, s => .ok (t, s)
  | en :: rest, t, s =>
    match lookup.find? (fun p => p.2 == en.exercise_slug) with
    | none => .error (en.exercise_slug, t)
    | some ex =>
      let idp := freshId s
      createEntriesLoop lookup pid rest
        (insertE (.entry idp.1 pid ex.1 en.day_of_week en.position) t) idp.2

/-- Program loop of `create_programs` (lines 120-145): insert the program,
flush (no transaction effect), then its entries. -/
def createProgramsLoop (users : List Nat) (lookup : List (Nat × String)) :
    List ProgramFixture → Tx → Rnd → Except (String × Tx) (List Nat × Tx × Rnd)
  | [], t, s => .ok ([], t, s)
  | p :: rest, t, s =>
    let ow := chooseFrom users 0 s
    let idp := freshId ow.2
    match createEntriesLoop lookup idp.1 p.entries
        (insertE (.program idp.1 p.name) t) idp.2 with
    | .error e => .error e
    | .ok (t1, s1) =>
      match createProgramsLoop users lookup rest t1 s1 with
      | .error e => .error e
      | .ok (ids, t2, s2) => .ok (idp.1 :: ids, t2, s2)

/-- Models `create_programs` (lines 111-149): the single commit happens only after
every program and entry was inserted, so a missing slug aborts the stage
with nothing of it committed. -/
def create_programs (users : List Nat) (lookup : List (Nat × String))
    (fx : List ProgramFixture) (t : Tx) (s : Rnd) :
    Except (String × Tx) (List Nat × Tx × Rnd) :=
  match createProgramsLoop users lookup fx t s with
  | .error e => .error e
  | .ok (ids, t1, s1) => .ok (ids, commitTx t1, s1)

structure Fixtures where
  users : List UserFixture
  exercises : List ExerciseFixture
  programs : List ProgramFixture

/-- The stage sequencing of `main` (lines 424-459) up to program creation:
users, then exercises, then programs; an exception from `create_programs`
is caught by the handler, which rolls back the uncommitted transaction
segment and re-raises (fatal, nonzero exit).  The assignment and workout
stages run only on the ok branch, starting from the returned state. -/
def mainSeedStages (fx : Fixtures) (s : Rnd) :
    Except (String × Tx) (Tx × Rnd) :=
  let u := create_users fx.users ⟨[], []⟩ s
  let e := create_exercises fx.exercises u.1 u.2.1 u.2.2
  match create_programs u.1 e.1 fx.programs e.2.1 e.2.2 with
  | .error (m, te) => .error (m, rollbackTx te)
  | .ok (_, t, s1) => .ok (t, s1)

/-- Did the run abort? -/
def seedFailed : Except (String × Tx) (Tx × Rnd) → Bool
  | .error _ => true
  | .ok _ => false

/-- The entities committed to storage when the run ends (either way). -/
def seedLog : Except (String × Tx) (Tx × Rnd) → List Entity
  | .error (_, t) => t.committed
  | .ok (t, _) => t.committed

end SeedRun

/- ------------------------------------------------------------------
Concrete inputs used by the closed theorems and the witnesses.
------------------------------------------------------------------- -/

/-- Both abstract streams at zero, cursors and identifier supply at zero. -/
def rnd0 : Rnd := ⟨fun _ => 0, fun _ => 0, 0, 0, 0⟩

/-- A model of `hash ∘ str` mapping every identifier to 0. -/
def uh0 : Nat → Int := fun _ => 0

/-- The slug used by the concrete witnesses. -/
def squatSlug : String := "squat"

/-- A concrete `datetime.now()`: day 1000 after the Monday epoch (a
Wednesday), 00:00:35.  365 days earlier is day 635, a Saturday
(weekday 5). -/
def demoNow : Int := 1000 * 86400 + 35

def demoUser : User := ⟨900⟩

def demoSquat : Exercise := ⟨901, "squat"⟩

/-- One program scheduling "squat" once on weekday 5. -/
def demoProgram : Program := ⟨902, [⟨903, 902, 901, 5, 1⟩]⟩

/-- One program scheduling the same exercise twice on weekday 5 (allowed by
the model: `uq_program_entry_day_position` only constrains
(program, day_of_week, position)). -/
def demoProgramDup : Program :=
  ⟨902, [⟨903, 902, 901, 5, 1⟩, ⟨904, 902, 901, 5, 2⟩]⟩

/-- An always-active assignment of `demoProgram` starting 30 days ago. -/
def demoUP : UserProgram := ⟨905, 900, 902, midnightOf demoNow - 30 * 86400, true⟩

/-- The assignments produced by `create_user_programs` on the demo data with
the all-zero streams. -/
def demoAssignments : List UserProgram :=
  (create_user_programs demoNow [demoUser] [demoProgram] rnd0).1

/-- A full synthesizer run: assignments from `create_user_programs`, then
the workout generator, on the single-user single-program demo world. -/
def demoTrace : List Ev :=
  (generate_realistic_workout_data uh0 [demoUser] [demoSquat] [demoProgram]
    demoAssignments demoNow
    (create_user_programs demoNow [demoUser] [demoProgram] rnd0).2).1

/-- A run over the duplicate-scheduling program, with the assignment active
by construction. -/
def demoTraceDup : List Ev :=
  (generate_realistic_workout_data uh0 [demoUser] [demoSquat] [demoProgramDup]
    [demoUP] demoNow rnd0).1

/-- The assignment `create_user_programs` produces on the demo data with the
all-zero streams: program 902, start 30 days before `demoNow`, active. -/
def demoUP0 : UserProgram := ⟨0, 900, 902, 83808000, true⟩

/-- The first session materialized in `demoTrace`: program-based, started on
day 635 (weekday 5), with `prog_week_index = -48`. -/
def demoSd : Session := ⟨1, 900, some 0, some (-48), some 5, 54885635, 54887435⟩

/-- A copy of `demoProgram` whose single entry targets weekday 4, a day on
which no demo draft ever lands (they all land on weekday 5). -/
def demoProgramOff : Program := ⟨902, [⟨903, 902, 901, 4, 1⟩]⟩

/-- Draft context for the day-skip witness: the chosen assignment's program
schedules nothing for the computed weekday. -/
def demoCtxOff : Ctx := ⟨uh0, 900, [demoSquat], [demoProgramOff], [demoUP], demoNow⟩

/- The values of the leading draws of a draft, written as `processDraft`
computes them: date, hour and minute draws first, then the
program-or-freeform coin, then (on the program path) the assignment
choice. -/

/-- The `random.choice([True, False])` draw of a draft; even means `True`. -/
def draftCoinVal (s : Rnd) : Nat :=
  (drawN (randN 0 59 (randN 6 20 (randN 0 365 s).2).2).2).1

/-- The assignment a program-based draft picks. -/
def draftUp (ctx : Ctx) (s : Rnd) : UserProgram :=
  (chooseFrom ctx.ups defaultUserProgram
    (drawN (randN 0 59 (randN 6 20 (randN 0 365 s).2).2).2).2).1

/-- The draft's `started_at` timestamp, from the three date/time draws. -/
def draftStarted (ctx : Ctx) (s : Rnd) : Int :=
  workoutTs ctx.now (randN 0 365 s).1 (randN 6 20 (randN 0 365 s).2).1
    (randN 0 59 (randN 6 20 (randN 0 365 s).2).2).1

namespace SeedRun

/-- Does some program fixture entry reference a slug that no exercise
fixture carries? -/
def badSlugExists (fx : Fixtures) : Bool :=
  fx.programs.any (fun p => p.entries.any (fun en =>
    !(fx.exercises.any (fun e => e.slug == en.exercise_slug))))

/-- A fixture set whose only program references the unknown slug "bench". -/
def demoFxBad : Fixtures :=
  ⟨[⟨"a@x"⟩], [⟨"squat"⟩], [⟨"P", [⟨"bench", 0, 1⟩]⟩]⟩

end SeedRun

/- ==================================================================
Theorems.
=================================================================== -/

theorem rat_blt_lt {a b : ℚ} (h : Rat.blt a b = true) : a < b := h

theorem rat_le_of_not_blt {a b : ℚ} (h : ¬ Rat.blt a b = true) : b ≤ a := by
  cases hb : a.blt b with
  | false => exact hb
  | true => exact absurd hb h

theorem clamp01_mem (t : ℚ) : 0 ≤ clamp01 t ∧ clamp01 t ≤ 1 := by
  unfold clamp01
  split_ifs with h1 h2
  · exact ⟨le_refl 0, by norm_num⟩
  · exact ⟨by norm_num, le_refl 1⟩
  · exact ⟨rat_le_of_not_blt h1, rat_le_of_not_blt h2⟩

theorem uniformQ_mem {lo hi : ℚ} (h : lo ≤ hi) (s : Rnd) :
    lo ≤ (uniformQ lo hi s).1 ∧ (uniformQ lo hi s).1 ≤ hi := by
  obtain ⟨h0, h1⟩ := clamp01_mem ((drawQ s).1)
  unfold uniformQ
  dsimp only
  constructor
  · nlinarith
  · nlinarith

theorem roundHalfEven_nonneg {x : ℚ} (h : 0 ≤ x) : 0 ≤ roundHalfEven x := by
  unfold roundHalfEven
  have hn : 0 ≤ x.floor := Rat.le_floor.mpr (by exact_mod_cast h)
  dsimp only
  split_ifs <;> omega

theorem round1_nonneg {x : ℚ} (h : 0 ≤ x) : 0 ≤ round1 x := by
  unfold round1
  have h1 : 0 ≤ roundHalfEven (10 * x) := roundHalfEven_nonneg (by nlinarith)
  have h2 : (0 : ℚ) ≤ (roundHalfEven (10 * x) : ℚ) := by exact_mod_cast h1
  positivity

/-- C4: the weight model equals the spec's reference definition — base from
the category table with default 20 kg, bodyweight slugs return 0
immediately, otherwise base · (0.6 + 0.2·tier) · jitter rounded to one
decimal place — with the tier in {0, 1, 2}, the per-set jitter in
[0.8, 1.2], and a non-negative result. -/
theorem generate_realistic_weight_matches_spec (uh : Nat → Int)
    (slug : String) (uid : Nat) (s : Rnd) :
    (generate_realistic_weight uh slug uid s).1
        = weightSpecModel slug (userTier uh uid) ((uniformQ (4/5) (6/5) s).1) ∧
    (0 ≤ userTier uh uid ∧ userTier uh uid < 3) ∧
    ((4/5 : ℚ) ≤ (uniformQ (4/5) (6/5) s).1 ∧ (uniformQ (4/5) (6/5) s).1 ≤ 6/5) ∧
    0 ≤ (generate_realistic_weight uh slug uid s).1 := by
  have htier : 0 ≤ userTier uh uid ∧ userTier uh uid < 3 :=
    ⟨Int.emod_nonneg _ (by norm_num), Int.emod_lt_of_pos _ (by norm_num)⟩
  have hjit : (4/5 : ℚ) ≤ (uniformQ (4/5) (6/5) s).1 ∧
      (uniformQ (4/5) (6/5) s).1 ≤ 6/5 := uniformQ_mem (by norm_num) s
  unfold generate_realistic_weight weightSpecModel userTier
  dsimp only
  split_ifs with hb
  · exact ⟨rfl, htier, hjit, le_refl 0⟩
  · refine ⟨?_, htier, hjit, ?_⟩
    · ring_nf
    · apply round1_nonneg
      have h0 : (0 : ℚ) ≤ (baseWeightFor slug : ℚ) := by positivity
      have h1 : (0 : ℚ) ≤ ((uh uid).emod 3 : ℚ) := by
        exact_mod_cast htier.1
      have h2 : (0 : ℚ) ≤ (uniformQ (4/5) (6/5) s).1 := le_trans (by norm_num) hjit.1
      have h3 : (0 : ℚ) ≤ 3/5 + ((uh uid).emod 3 : ℚ) * (1/5) := by linarith
      exact mul_nonneg (mul_nonneg h0 h3) h2

/-- C5: the rep model equals the spec's reference definition — base drawn
from the coarse category range of the slug (compound [3,8],
isolation/accessory [8,15], endurance/cardio [10,30], unclassified [5,12]),
minus a fatigue deduction in [1,3] floored at 1 when
`set_number > total_sets // 2` — and the result is always ≥ 1. -/
theorem generate_realistic_reps_matches_spec (slug : String)
    (set_num total_sets : Nat) (s : Rnd) :
    generate_realistic_reps slug set_num total_sets s
        = repsSpecModel slug set_num total_sets s ∧
    1 ≤ (generate_realistic_reps slug set_num total_sets s).1 := by
  unfold generate_realistic_reps repsSpecModel repCategoryOf randN drawN
  dsimp only
  constructor
  · split_ifs <;> simp only [repRange] <;>
      first
        | rw [Nat.max_eq_right (Nat.le_max_left 1 _)]
        | rw [Nat.max_eq_right (show 1 ≤ _ by omega)]
  · split_ifs <;> exact Nat.le_max_left 1 _

/-- C6: with the per-set jitter draw held fixed, the weight model returns
the same value for the same user identifier and slug on any two calls
within one run, and the strength tier it derives is a pure function of the
user identifier with values in {0, 1, 2}. -/
theorem weight_tier_stable (uh : Nat → Int) (slug : String) (uid : Nat)
    (s1 s2 : Rnd)
    (hj : (uniformQ (4/5) (6/5) s1).1 = (uniformQ (4/5) (6/5) s2).1) :
    (generate_realistic_weight uh slug uid s1).1
      = (generate_realistic_weight uh slug uid s2).1 ∧
    0 ≤ userTier uh uid ∧ userTier uh uid < 3 := by
  refine ⟨?_, Int.emod_nonneg _ (by norm_num), Int.emod_lt_of_pos _ (by norm_num)⟩
  unfold generate_realistic_weight uniformQ
  dsimp only
  split_ifs with hb
  · rfl
  · unfold uniformQ at hj
    dsimp only at hj
    rw [hj]

/-- Witness for C6: two random states with distinct cursors but the same
jitter value yield the same weight. -/
theorem weight_tier_stable_witness :
    (generate_realistic_weight uh0 squatSlug 0 rnd0).1
      = (generate_realistic_weight uh0 squatSlug 0 ⟨fun _ => 0, fun _ => 0, 5, 7, 9⟩).1 ∧
    0 ≤ userTier uh0 0 ∧ userTier uh0 0 < 3 :=
  weight_tier_stable uh0 squatSlug 0 rnd0 ⟨fun _ => 0, fun _ => 0, 5, 7, 9⟩ rfl

namespace SeedRun

theorem createUsersLoop_tx : ∀ (fx : List UserFixture) (t : Tx) (s : Rnd),
    (createUsersLoop fx t s).2.1.committed = t.committed ∧
    ∀ e ∈ (createUsersLoop fx t s).2.1.pending,
      e ∈ t.pending ∨ isUserE e = true
  | [], t, s => ⟨rfl, fun e he => Or.inl he⟩
  | u :: rest, t, s => by
    obtain ⟨h1, h2⟩ := createUsersLoop_tx rest (insertE (.user (freshId s).1 u.email) t)
      (freshId s).2
    refine ⟨h1, fun e he => ?_⟩
    rcases h2 e he with hmem | hu
    · unfold insertE at hmem
      rcases List.mem_append.mp hmem with h | h
      · exact Or.inl h
      · simp only [List.mem_singleton] at h
        subst h
        exact Or.inr rfl
    · exact Or.inr hu

theorem createExercisesLoop_tx (users : List Nat) :
    ∀ (fx : List ExerciseFixture) (t : Tx) (s : Rnd),
    (createExercisesLoop users fx t s).2.1.committed = t.committed ∧
    (∀ e ∈ (createExercisesLoop users fx t s).2.1.pending,
      e ∈ t.pending ∨ isExerciseE e = true) ∧
    (createExercisesLoop users fx t s).1.map Prod.snd = fx.map (·.slug)
  | [], t, s => ⟨rfl, fun e he => Or.inl he, rfl⟩
  | x :: rest, t, s => by
    obtain ⟨h1, h2, h3⟩ := createExercisesLoop_tx users rest
      (insertE (.exercise (freshId (chooseFrom users 0 s).2).1 x.slug
        (chooseFrom users 0 s).1) t) (freshId (chooseFrom users 0 s).2).2
    refine ⟨h1, fun e he => ?_, ?_⟩
    · rcases h2 e he with hmem | hu
      · unfold insertE at hmem
        rcases List.mem_append.mp hmem with h | h
        · exact Or.inl h
        · simp only [List.mem_singleton] at h
          subst h
          exact Or.inr rfl
      · exact Or.inr hu
    · show (createExercisesLoop users (x :: rest) t s).1.map Prod.snd = _
      unfold createExercisesLoop
      dsimp only
      rw [List.map_cons, List.map_cons, h3]

theorem createEntriesLoop_committed (lookup : List (Nat × String)) (pid : Nat) :
    ∀ (ents : List EntryFixture) (t : Tx) (s : Rnd),
    (∀ m t2, createEntriesLoop lookup pid ents t s = .error (m, t2) →
      t2.committed = t.committed) ∧
    (∀ t2 s2, createEntriesLoop lookup pid ents t s = .ok (t2, s2) →
      t2.committed = t.committed)
  | [], t, s => by
    constructor
    · intro m t2 h
      cases h
    · intro t2 s2 h
      cases h
      rfl
  | en :: rest, t, s => by
    unfold createEntriesLoop
    cases hf : lookup.find? (fun p => p.2 == en.exercise_slug) with
    | none =>
      constructor
      · intro m t2 h
        cases h
        rfl
      · intro t2 s2 h
        cases h
    | some ex =>
      obtain ⟨h1, h2⟩ := createEntriesLoop_committed lookup pid rest
        (insertE (.entry (freshId s).1 pid ex.1 en.day_of_week en.position) t)
        (freshId s).2
      exact ⟨fun m t2 h => h1 m t2 h, fun t2 s2 h => h2 t2 s2 h⟩

theorem createEntriesLoop_err (lookup : List (Nat × String)) (pid : Nat) :
    ∀ (ents : List EntryFixture) (t : Tx) (s : Rnd),
    (∃ en ∈ ents, lookup.find? (fun p => p.2 == en.exercise_slug) = none) →
    ∃ m t2, createEntriesLoop lookup pid ents t s = .error (m, t2)
  | [], t, s => by
    rintro ⟨en, hmem, -⟩
    cases hmem
  | en :: rest, t, s => by
    rintro ⟨en2, hmem, hnone⟩
    unfold createEntriesLoop
    cases hf : lookup.find? (fun p => p.2 == en.exercise_slug) with
    | none => exact ⟨en.exercise_slug, t, rfl⟩
    | some ex =>
      rcases List.mem_cons.mp hmem with h | h
      · subst h
        rw [hf] at hnone
        cases hnone
      · exact createEntriesLoop_err lookup pid rest _ _ ⟨en2, h, hnone⟩

theorem createProgramsLoop_inv (users : List Nat) (lookup : List (Nat × String)) :
    ∀ (fx : List ProgramFixture) (t : Tx) (s : Rnd),
    (∀ m t2, createProgramsLoop users lookup fx t s = .error (m, t2) →
      t2.committed = t.committed) ∧
    (∀ ids t2 s2, createProgramsLoop users lookup fx t s = .ok (ids, t2, s2) →
      t2.committed = t.committed) ∧
    ((∃ p ∈ fx, ∃ en ∈ p.entries,
        lookup.find? (fun q => q.2 == en.exercise_slug) = none) →
      ∃ m t2, createProgramsLoop users lookup fx t s = .error (m, t2))
  | [], t, s => by
    unfold createProgramsLoop
    refine ⟨?_, ?_, ?_⟩
    · intro m t2 h
      cases h
    · intro ids t2 s2 h
      cases h
      rfl
    · rintro ⟨p, hmem, -⟩
      cases hmem
  | p :: rest, t, s => by
    unfold createProgramsLoop
    dsimp only
    have hins : (insertE (.program (freshId (chooseFrom users 0 s).2).1 p.name)
        t).committed = t.committed := rfl
    obtain ⟨he1, he2⟩ := createEntriesLoop_committed lookup
      (freshId (chooseFrom users 0 s).2).1 p.entries
      (insertE (.program (freshId (chooseFrom users 0 s).2).1 p.name) t)
      (freshId (chooseFrom users 0 s).2).2
    cases hE : createEntriesLoop lookup (freshId (chooseFrom users 0 s).2).1
        p.entries (insertE (.program (freshId (chooseFrom users 0 s).2).1 p.name) t)
        (freshId (chooseFrom users 0 s).2).2 with
    | error e =>
      obtain ⟨em, et⟩ := e
      dsimp only
      refine ⟨?_, ?_, ?_⟩
      · intro m t2 h
        injection h with h'
        injection h' with hm ht
        subst ht
        exact (he1 em et hE).trans hins
      · intro ids t2 s2 h
        cases h
      · intro _
        exact ⟨em, et, rfl⟩
    | ok r =>
      obtain ⟨t1, s1⟩ := r
      dsimp only
      obtain ⟨hp1, hp2, hp3⟩ := createProgramsLoop_inv users lookup rest t1 s1
      have hrc : t1.committed = t.committed := (he2 t1 s1 hE).trans hins
      cases hR : createProgramsLoop users lookup rest t1 s1 with
      | error e2 =>
        obtain ⟨em2, et2⟩ := e2
        dsimp only
        refine ⟨?_, ?_, ?_⟩
        · intro m t2 h
          injection h with h'
          injection h' with hm ht
          subst ht
          exact (hp1 em2 et2 hR).trans hrc
        · intro ids t2 s2 h
          cases h
        · intro _
          exact ⟨em2, et2, rfl⟩
      | ok r2 =>
        obtain ⟨ids2, t22, s22⟩ := r2
        dsimp only
        refine ⟨?_, ?_, ?_⟩
        · intro m t2 h
          cases h
        · intro ids t2 s2 h
          injection h with h'
          injection h' with h1 h''
          injection h'' with h2 h3
          subst h2
          exact (hp2 ids2 t22 s22 hR).trans hrc
        · rintro ⟨q, hqmem, en, henmem, hnone⟩
          rcases List.mem_cons.mp hqmem with h | h
          · subst h
            obtain ⟨m, t2, hcontra⟩ := createEntriesLoop_err lookup
              (freshId (chooseFrom users 0 s).2).1 q.entries
              (insertE (.program (freshId (chooseFrom users 0 s).2).1 q.name) t)
              (freshId (chooseFrom users 0 s).2).2
              ⟨en, henmem, hnone⟩
            rw [hE] at hcontra
            cases hcontra
          · obtain ⟨m, t2, hcontra⟩ := hp3 ⟨q, h, en, henmem, hnone⟩
            rw [hR] at hcontra
            cases hcontra

theorem commitTx_committed (t : Tx) : (commitTx t).committed = t.committed ++ t.pending := rfl

theorem rollbackTx_committed (t : Tx) : (rollbackTx t).committed = t.committed := rfl

/-- C7 (amended): a program fixture entry whose slug is absent from the
exercise fixture makes the run abort during program creation, and nothing
from the program stage onward is ever committed — every committed entity of
the failing run is a user or an exercise, written by the two stages that
commit before program creation. -/
theorem missing_slug_aborts (fx : Fixtures) (s : Rnd)
    (hbad : badSlugExists fx = true) :
    seedFailed (mainSeedStages fx s) = true ∧
    ∀ e ∈ seedLog (mainSeedStages fx s), isUserE e = true ∨ isExerciseE e = true := by
  obtain ⟨hu1, hu2⟩ := createUsersLoop_tx fx.users ⟨[], []⟩ s
  obtain ⟨he1, he2, he3⟩ := createExercisesLoop_tx
    (createUsersLoop fx.users ⟨[], []⟩ s).1 fx.exercises
    (commitTx (createUsersLoop fx.users ⟨[], []⟩ s).2.1)
    (createUsersLoop fx.users ⟨[], []⟩ s).2.2
  obtain ⟨hp1, hp2, hp3⟩ := createProgramsLoop_inv
    (createUsersLoop fx.users ⟨[], []⟩ s).1
    (createExercisesLoop (createUsersLoop fx.users ⟨[], []⟩ s).1 fx.exercises
      (commitTx (createUsersLoop fx.users ⟨[], []⟩ s).2.1)
      (createUsersLoop fx.users ⟨[], []⟩ s).2.2).1
    fx.programs
    (commitTx (createExercisesLoop (createUsersLoop fx.users ⟨[], []⟩ s).1
      fx.exercises (commitTx (createUsersLoop fx.users ⟨[], []⟩ s).2.1)
      (createUsersLoop fx.users ⟨[], []⟩ s).2.2).2.1)
    (createExercisesLoop (createUsersLoop fx.users ⟨[], []⟩ s).1 fx.exercises
      (commitTx (createUsersLoop fx.users ⟨[], []⟩ s).2.1)
      (createUsersLoop fx.users ⟨[], []⟩ s).2.2).2.2
  -- every entity committed by the first two stages is a user or an exercise
  have hcom : ∀ e ∈ (commitTx (createExercisesLoop
      (createUsersLoop fx.users ⟨[], []⟩ s).1 fx.exercises
      (commitTx (createUsersLoop fx.users ⟨[], []⟩ s).2.1)
      (createUsersLoop fx.users ⟨[], []⟩ s).2.2).2.1).committed,
      isUserE e = true ∨ isExerciseE e = true := by
    intro e he
    rw [commitTx_committed] at he
    rcases List.mem_append.mp he with h | h
    · rw [he1, commitTx_committed, hu1] at h
      simp only [List.nil_append] at h
      rcases hu2 e h with h3 | h3
      · simp at h3
      · exact Or.inl h3
    · rcases he2 e h with h2 | h2
      · simp [commitTx] at h2
      · exact Or.inr h2
  -- the bad slug is absent from the lookup table as well
  have hfind : ∃ p ∈ fx.programs, ∃ en ∈ p.entries,
      ((createExercisesLoop (createUsersLoop fx.users ⟨[], []⟩ s).1 fx.exercises
        (commitTx (createUsersLoop fx.users ⟨[], []⟩ s).2.1)
        (createUsersLoop fx.users ⟨[], []⟩ s).2.2).1).find?
          (fun q => q.2 == en.exercise_slug) = none := by
    unfold badSlugExists at hbad
    simp only [List.any_eq_true, Bool.not_eq_eq_eq_not, Bool.not_true] at hbad
    obtain ⟨p, hp, en, hen, hslug⟩ := hbad
    refine ⟨p, hp, en, hen, List.find?_eq_none.mpr ?_⟩
    intro q hq hbeq
    have hq2 : q.2 ∈ (createExercisesLoop (createUsersLoop fx.users ⟨[], []⟩ s).1
        fx.exercises (commitTx (createUsersLoop fx.users ⟨[], []⟩ s).2.1)
        (createUsersLoop fx.users ⟨[], []⟩ s).2.2).1.map Prod.snd :=
      List.mem_map_of_mem Prod.snd hq
    rw [he3] at hq2
    obtain ⟨ex, hex, hexs⟩ := List.mem_map.mp hq2
    have : fx.exercises.any (fun e => e.slug == en.exercise_slug) = true := by
      refine List.any_eq_true.mpr ⟨ex, hex, ?_⟩
      rw [hexs]
      exact hbeq
    rw [this] at hslug
    cases hslug
  obtain ⟨m, t2, herr⟩ := hp3 hfind
  have hcom2 : ∀ e ∈ t2.committed, isUserE e = true ∨ isExerciseE e = true := by
    intro e he
    exact hcom e (hp1 m t2 herr ▸ he)
  unfold mainSeedStages create_users create_exercises create_programs
  dsimp only
  rw [herr]
  exact ⟨rfl, hcom2⟩

/-- Witness for C7 (amended), at the concrete bad fixture set. -/
theorem missing_slug_aborts_witness :
    seedFailed (mainSeedStages demoFxBad rnd0) = true ∧
    ∀ e ∈ seedLog (mainSeedStages demoFxBad rnd0),
      isUserE e = true ∨ isExerciseE e = true :=
  missing_slug_aborts demoFxBad rnd0 (by decide)

/-- C7 counterexample: on a fixture set whose program references the unknown
slug "bench", the run does fail fatally, but the claim's "no entities of any
kind are committed to storage by the failing run" is false — the user and
the exercise committed by the first two stages are already in storage when
program creation aborts. -/
theorem missing_slug_commits_users :
    seedFailed (mainSeedStages demoFxBad rnd0) = true ∧
    (seedLog (mainSeedStages demoFxBad rnd0)).any isUserE = true ∧
    (seedLog (mainSeedStages demoFxBad rnd0)).any isExerciseE = true := by
  refine ⟨by decide, by decide, by decide⟩

end SeedRun

/- Helper lemmas about the trace observations. -/

theorem sessionsOf_sess (sd : Session) (tr : List Ev) :
    sessionsOf (Ev.sess sd :: tr) = sd :: sessionsOf tr := rfl

theorem sessionsOf_commit (tr : List Ev) :
    sessionsOf (Ev.commit :: tr) = sessionsOf tr := rfl

theorem sessionsOf_setev (r : SetRec) (tr : List Ev) :
    sessionsOf (Ev.set r :: tr) = sessionsOf tr := rfl

theorem sessionsOf_append (t1 t2 : List Ev) :
    sessionsOf (t1 ++ t2) = sessionsOf t1 ++ sessionsOf t2 :=
  List.filterMap_append t1 t2 _

theorem sessionsOf_of_sets : ∀ (l : List Ev),
    (∀ e ∈ l, isSetEv e = true) → sessionsOf l = []
  | [], _ => rfl
  | e :: l, h => by
    cases e with
    | set r =>
      rw [sessionsOf_setev]
      exact sessionsOf_of_sets l fun x hx => h x (List.mem_cons_of_mem _ hx)
    | sess sd => cases h (Ev.sess sd) (List.mem_cons_self _ _)
    | commit => cases h Ev.commit (List.mem_cons_self _ _)

theorem filterSC_append (t1 t2 : List Ev) :
    filterSC (t1 ++ t2) = filterSC t1 ++ filterSC t2 :=
  List.filter_append t1 t2

theorem filterSC_of_sets : ∀ (l : List Ev),
    (∀ e ∈ l, isSetEv e = true) → filterSC l = []
  | [], _ => rfl
  | e :: l, h => by
    have he := h e (List.mem_cons_self _ _)
    unfold filterSC
    rw [List.filter_cons, he]
    exact filterSC_of_sets l fun x hx => h x (List.mem_cons_of_mem _ hx)

theorem sessionsOf_filterSC : ∀ tr : List Ev,
    sessionsOf (filterSC tr) = sessionsOf tr
  | [] => rfl
  | e :: tr => by
    cases e with
    | sess sd =>
      show sessionsOf (Ev.sess sd :: filterSC tr) = _
      rw [sessionsOf_sess, sessionsOf_sess, sessionsOf_filterSC tr]
    | set r =>
      show sessionsOf (filterSC tr) = _
      rw [sessionsOf_setev, sessionsOf_filterSC tr]
    | commit =>
      show sessionsOf (Ev.commit :: filterSC tr) = _
      rw [sessionsOf_commit, sessionsOf_commit, sessionsOf_filterSC tr]

theorem getD_mod_mem {α : Type} (l : List α) (d : α) (i : Nat) (h : l ≠ []) :
    l.getD (i % l.length) d ∈ l := by
  have hl : 0 < l.length := List.length_pos.mpr h
  have hi : i % l.length < l.length := Nat.mod_lt _ hl
  rw [List.getD_eq_getElem l d hi]
  exact List.getElem_mem hi

theorem chooseFrom_mem {α : Type} (l : List α) (d : α) (s : Rnd) (h : l ≠ []) :
    (chooseFrom l d s).1 ∈ l :=
  getD_mod_mem l d _ h

theorem setLoop_isSet (uh : Nat → Int) (slug : String) (uid exid sid total : Nat) :
    ∀ (n i : Nat) (s : Rnd),
    ∀ e ∈ (setLoop uh slug uid exid sid total n i s).1, isSetEv e = true
  | 0, i, s => by
    intro e he
    cases he
  | n + 1, i, s => by
    unfold setLoop
    dsimp only
    intro e he
    rcases List.mem_cons.mp he with h | h
    · subst h
      rfl
    · exact setLoop_isSet uh slug uid exid sid total n (i + 1) _ e h

theorem progSets_isSet (uh : Nat → Int) (exercises : List Exercise) (uid sid : Nat) :
    ∀ (pes : List ProgramEntry) (s : Rnd),
    ∀ e ∈ (progSets uh exercises uid sid pes s).1, isSetEv e = true
  | [], s => by
    intro e he
    cases he
  | pe :: rest, s => by
    unfold progSets
    dsimp only
    intro e he
    rcases List.mem_append.mp he with h | h
    · exact setLoop_isSet uh _ uid _ sid _ _ _ _ e h
    · exact progSets_isSet uh exercises uid sid rest _ e h

theorem freeSetsLoop_isSet (uh : Nat → Int) (uid sid : Nat) :
    ∀ (exs : List Exercise) (s : Rnd),
    ∀ e ∈ (freeSetsLoop uh uid sid exs s).1, isSetEv e = true
  | [], s => by
    intro e he
    cases he
  | ex :: rest, s => by
    unfold freeSetsLoop
    dsimp only
    intro e he
    rcases List.mem_append.mp he with h | h
    · exact setLoop_isSet uh _ uid _ sid _ _ _ _ e h
    · exact freeSetsLoop_isSet uh uid sid rest _ e h

theorem freeSets_isSet (uh : Nat → Int) (exercises : List Exercise)
    (uid sid : Nat) (s : Rnd) :
    ∀ e ∈ (freeSets uh exercises uid sid s).1, isSetEv e = true := by
  unfold freeSets
  dsimp only
  exact freeSetsLoop_isSet uh uid sid _ _

theorem SessOKG_mono {l1 l2 : List UserProgram} {sd : Session}
    (h : ∀ x ∈ l1, x ∈ l2) : SessOKG l1 sd → SessOKG l2 sd := by
  rintro (hfree | ⟨up, hup, hrest⟩)
  · exact Or.inl hfree
  · exact Or.inr ⟨up, h up hup, hrest⟩

/-- Shape of one draft iteration: either the draft is skipped (day-skip
policy) with nothing emitted and the accepted-session counter unchanged, or
exactly one session event is emitted, followed by set events only and — iff
the incremented counter is a multiple of 100 — a checkpoint commit, with the
session satisfying the freeform/program-based shape invariant. -/
theorem processDraft_shape (ctx : Ctx) (c : Nat) (s : Rnd) :
    ((processDraft ctx c s).1 = [] ∧ (processDraft ctx c s).2.1 = c) ∨
    (∃ sd sets,
      (processDraft ctx c s).1
        = Ev.sess sd :: sets ++ (if (c + 1) % 100 == 0 then [Ev.commit] else []) ∧
      (∀ e ∈ sets, isSetEv e = true) ∧
      (processDraft ctx c s).2.1 = c + 1 ∧
      SessOKG ctx.ups sd) := by
  unfold processDraft
  dsimp only
  split
  · -- program path
    rename_i huse
    split
    · exact Or.inl ⟨rfl, rfl⟩
    · rename_i hday
      rw [Bool.and_eq_true] at huse
      have hne : ctx.ups ≠ [] := by
        intro hnil
        rw [hnil] at huse
        cases huse.2
      refine Or.inr ⟨_, _, rfl, progSets_isSet _ _ _ _ _ _, rfl, Or.inr ?_⟩
      exact ⟨_, chooseFrom_mem ctx.ups defaultUserProgram _ hne, rfl, rfl, rfl⟩
  · -- freeform path
    exact Or.inr ⟨_, _, rfl, freeSets_isSet _ _ _ _ _, rfl,
      Or.inl ⟨rfl, rfl, rfl⟩⟩

/- Equations of the checkpoint checker, one per constructor split. -/

theorem commitsOk_sess_commit (c : Nat) (sd : Session) (tr : List Ev) :
    commitsOk c (Ev.sess sd :: Ev.commit :: tr)
      = (((c + 1) % 100 == 0) && commitsOk (c + 1) tr) := rfl

theorem commitsOk_sess_nil (c : Nat) (sd : Session) :
    commitsOk c [Ev.sess sd] = (((c + 1) % 100 != 0) && commitsOk (c + 1) []) := rfl

theorem commitsOk_sess_sess (c : Nat) (sd sd2 : Session) (tr : List Ev) :
    commitsOk c (Ev.sess sd :: Ev.sess sd2 :: tr)
      = (((c + 1) % 100 != 0) && commitsOk (c + 1) (Ev.sess sd2 :: tr)) := rfl

theorem commitsOk_sess_set (c : Nat) (sd : Session) (r : SetRec) (tr : List Ev) :
    commitsOk c (Ev.sess sd :: Ev.set r :: tr)
      = (((c + 1) % 100 != 0) && commitsOk (c + 1) (Ev.set r :: tr)) := rfl

theorem commitsOk_commit (c : Nat) (tr : List Ev) :
    commitsOk c (Ev.commit :: tr) = false := rfl

theorem commitsOk_setev (c : Nat) (r : SetRec) (tr : List Ev) :
    commitsOk c (Ev.set r :: tr) = false := rfl

/-- The checker composes over concatenation when the counter is advanced by
the number of sessions of the first part. -/
theorem commitsOk_append : ∀ (c : Nat) (t1 t2 : List Ev),
    commitsOk c t1 = true →
    commitsOk (c + (sessionsOf t1).length) t2 = true →
    commitsOk c (t1 ++ t2) = true
  | c, [], t2, _, h2 => by simpa using h2
  | c, Ev.sess sd :: Ev.commit :: tr, t2, h1, h2 => by
    rw [commitsOk_sess_commit, Bool.and_eq_true] at h1
    show commitsOk c (Ev.sess sd :: Ev.commit :: (tr ++ t2)) = true
    rw [commitsOk_sess_commit, Bool.and_eq_true]
    refine ⟨h1.1, commitsOk_append (c + 1) tr t2 h1.2 ?_⟩
    have he : c + (sessionsOf (Ev.sess sd :: Ev.commit :: tr)).length
        = c + 1 + (sessionsOf tr).length := by
      rw [sessionsOf_sess, sessionsOf_commit, List.length_cons]
      omega
    rw [he] at h2
    exact h2
  | c, [Ev.sess sd], t2, h1, h2 => by
    rw [commitsOk_sess_nil, Bool.and_eq_true] at h1
    have h2' : commitsOk (c + 1) t2 = true := h2
    show commitsOk c (Ev.sess sd :: t2) = true
    cases t2 with
    | nil =>
      rw [commitsOk_sess_nil, Bool.and_eq_true]
      exact ⟨h1.1, rfl⟩
    | cons e tr2 =>
      cases e with
      | sess sd2 =>
        rw [commitsOk_sess_sess, Bool.and_eq_true]
        exact ⟨h1.1, h2'⟩
      | commit =>
        rw [commitsOk_commit] at h2'
        cases h2'
      | set r =>
        rw [commitsOk_setev] at h2'
        cases h2'
  | c, Ev.sess sd :: Ev.sess sd2 :: tr, t2, h1, h2 => by
    rw [commitsOk_sess_sess, Bool.and_eq_true] at h1
    show commitsOk c (Ev.sess sd :: Ev.sess sd2 :: (tr ++ t2)) = true
    rw [commitsOk_sess_sess, Bool.and_eq_true]
    refine ⟨h1.1, ?_⟩
    have he : c + (sessionsOf (Ev.sess sd :: Ev.sess sd2 :: tr)).length
        = c + 1 + (sessionsOf (Ev.sess sd2 :: tr)).length := by
      rw [sessionsOf_sess, List.length_cons]
      omega
    rw [he] at h2
    exact commitsOk_append (c + 1) (Ev.sess sd2 :: tr) t2 h1.2 h2
  | c, Ev.sess sd :: Ev.set r :: tr, t2, h1, h2 => by
    rw [commitsOk_sess_set, commitsOk_setev, Bool.and_false] at h1
    cases h1
  | c, Ev.commit :: tr, t2, h1, h2 => by
    rw [commitsOk_commit] at h1
    cases h1
  | c, Ev.set r :: tr, t2, h1, h2 => by
    rw [commitsOk_setev] at h1
    cases h1

theorem sessionsOf_cif (b : Bool) :
    sessionsOf (if b then [Ev.commit] else []) = [] := by
  cases b <;> rfl

theorem filterSC_cif (b : Bool) :
    filterSC (if b then [Ev.commit] else []) = (if b then [Ev.commit] else []) := by
  cases b <;> rfl

theorem filterSC_sess (sd : Session) (tr : List Ev) :
    filterSC (Ev.sess sd :: tr) = Ev.sess sd :: filterSC tr := rfl

/-- Invariant of the per-user draft loop: the counter advances by exactly
the number of materialized sessions, checkpoint commits sit exactly after
every 100th accepted session, and every session satisfies the shape
invariant with respect to the user's active assignments. -/
theorem draftLoop_inv (ctx : Ctx) : ∀ (n c : Nat) (s : Rnd),
    (draftLoop ctx n c s).2.1 = c + (sessionsOf (draftLoop ctx n c s).1).length ∧
    commitsOk c (filterSC (draftLoop ctx n c s).1) = true ∧
    ∀ sd ∈ sessionsOf (draftLoop ctx n c s).1, SessOKG ctx.ups sd
  | 0, c, s => by
    refine ⟨rfl, rfl, ?_⟩
    intro sd h
    cases h
  | n + 1, c, s => by
    unfold draftLoop
    dsimp only
    obtain ⟨ih1, ih2, ih3⟩ :=
      draftLoop_inv ctx n (processDraft ctx c s).2.1 (processDraft ctx c s).2.2
    obtain ⟨h1, h2⟩ | ⟨sd, sets, heq, hsets, hcnt, hok⟩ := processDraft_shape ctx c s
    · rw [h2] at ih1 ih2 ih3
      rw [h1, h2]
      simp only [List.nil_append]
      exact ⟨ih1, ih2, ih3⟩
    · rw [hcnt] at ih1 ih2 ih3
      rw [heq, hcnt]
      have hse : sessionsOf ((Ev.sess sd :: sets ++
          (if (c + 1) % 100 == 0 then [Ev.commit] else [])) ++
            (draftLoop ctx n (c + 1) (processDraft ctx c s).2.2).1)
          = sd :: sessionsOf (draftLoop ctx n (c + 1) (processDraft ctx c s).2.2).1 := by
        simp only [List.cons_append, List.append_assoc, sessionsOf_sess,
          sessionsOf_append, sessionsOf_of_sets sets hsets, sessionsOf_cif,
          List.nil_append, List.append_nil]
      have hfe : filterSC ((Ev.sess sd :: sets ++
          (if (c + 1) % 100 == 0 then [Ev.commit] else [])) ++
            (draftLoop ctx n (c + 1) (processDraft ctx c s).2.2).1)
          = Ev.sess sd :: ((if (c + 1) % 100 == 0 then [Ev.commit] else []) ++
            filterSC (draftLoop ctx n (c + 1) (processDraft ctx c s).2.2).1) := by
        simp only [List.cons_append, List.append_assoc, filterSC_sess,
          filterSC_append, filterSC_of_sets sets hsets, filterSC_cif,
          List.nil_append, List.append_nil]
      refine ⟨?_, ?_, ?_⟩
      · rw [hse, List.length_cons]
        omega
      · rw [hfe]
        cases hb : ((c + 1) % 100 == 0) with
        | false =>
          rw [if_neg (by simp [hb])]
          simp only [List.nil_append]
          cases hX : filterSC (draftLoop ctx n (c + 1) (processDraft ctx c s).2.2).1 with
          | nil =>
            rw [commitsOk_sess_nil, Bool.and_eq_true]
            exact ⟨by simp [bne, hb], rfl⟩
          | cons e tr2 =>
            rw [hX] at ih2
            cases e with
            | sess sd2 =>
              rw [commitsOk_sess_sess, Bool.and_eq_true]
              exact ⟨by simp [bne, hb], ih2⟩
            | commit =>
              rw [commitsOk_commit] at ih2
              cases ih2
            | set r =>
              rw [commitsOk_setev] at ih2
              cases ih2
        | true =>
          rw [if_pos (by simp [hb]), List.singleton_append, commitsOk_sess_commit,
            Bool.and_eq_true]
          exact ⟨hb, ih2⟩
      · intro sd2 hmem
        rw [hse] at hmem
        rcases List.mem_cons.mp hmem with h | h
        · subst h
          exact hok
        · exact ih3 sd2 h

/-- Invariant of the user loop: same as `draftLoop_inv`, with the session
shape stated against the full assignment list. -/
theorem userLoop_inv (uh : Nat → Int) (exercises : List Exercise)
    (programs : List Program) (user_programs : List UserProgram) (now : Int) :
    ∀ (us : List User) (c : Nat) (s : Rnd),
    (userLoop uh exercises programs user_programs now us c s).2.1
      = c + (sessionsOf (userLoop uh exercises programs user_programs now us c s).1).length ∧
    commitsOk c (filterSC (userLoop uh exercises programs user_programs now us c s).1) = true ∧
    ∀ sd ∈ sessionsOf (userLoop uh exercises programs user_programs now us c s).1,
      SessOKG user_programs sd
  | [], c, s => by
    refine ⟨rfl, rfl, ?_⟩
    intro sd h
    cases h
  | u :: rest, c, s => by
    unfold userLoop
    dsimp only
    obtain ⟨d1, d2, d3⟩ := draftLoop_inv
      ⟨uh, u.id, exercises, programs,
        user_programs.filter (fun up => up.user_id == u.id && up.active), now⟩
      ((365 * (uniformQ (5/2) (9/2) s).1 / 7 : ℚ).floor.toNat) c
      (uniformQ (5/2) (9/2) s).2
    obtain ⟨r1, r2, r3⟩ := userLoop_inv uh exercises programs user_programs now rest
      (draftLoop
        ⟨uh, u.id, exercises, programs,
          user_programs.filter (fun up => up.user_id == u.id && up.active), now⟩
        ((365 * (uniformQ (5/2) (9/2) s).1 / 7 : ℚ).floor.toNat) c
        (uniformQ (5/2) (9/2) s).2).2.1
      (draftLoop
        ⟨uh, u.id, exercises, programs,
          user_programs.filter (fun up => up.user_id == u.id && up.active), now⟩
        ((365 * (uniformQ (5/2) (9/2) s).1 / 7 : ℚ).floor.toNat) c
        (uniformQ (5/2) (9/2) s).2).2.2
    refine ⟨?_, ?_, ?_⟩
    · rw [sessionsOf_append, List.length_append]
      omega
    · rw [filterSC_append]
      apply commitsOk_append c _ _ d2
      rw [sessionsOf_filterSC, ← d1]
      exact r2
    · intro sd hmem
      rw [sessionsOf_append] at hmem
      rcases List.mem_append.mp hmem with h | h
      · exact SessOKG_mono (fun x hx => List.mem_of_mem_filter hx) (d3 sd h)
      · exact r3 sd h

/-- C8: the full generator trace is a body followed by the final closing
commit; within the body, the accepted-session counter advances only when a
session is materialized (day-skipped drafts contribute nothing), and a
checkpoint commit sits immediately after a session exactly when the counter
reaches a multiple of 100; the final counter equals the number of
materialized sessions. -/
theorem generate_commit_checkpoints (uh : Nat → Int) (users : List User)
    (exercises : List Exercise) (programs : List Program)
    (user_programs : List UserProgram) (now : Int) (s : Rnd) :
    ∃ body,
      (generate_realistic_workout_data uh users exercises programs
        user_programs now s).1 = body ++ [Ev.commit] ∧
      commitsOk 0 (filterSC body) = true ∧
      (generate_realistic_workout_data uh users exercises programs
        user_programs now s).2.1 = (sessionsOf body).length := by
  obtain ⟨h1, h2, _⟩ := userLoop_inv uh exercises programs user_programs now users 0 s
  refine ⟨(userLoop uh exercises programs user_programs now users 0 s).1, rfl, h2, ?_⟩
  have hc : (generate_realistic_workout_data uh users exercises programs
      user_programs now s).2.1
      = (userLoop uh exercises programs user_programs now users 0 s).2.1 := rfl
  rw [hc, h1]
  omega

/-- C10: every generated session is either fully freeform — assignment
reference, program week index and program day of week all absent — or fully
program-based with all three present; no session mixes the two shapes. -/
theorem generate_session_shape (uh : Nat → Int) (users : List User)
    (exercises : List Exercise) (programs : List Program)
    (user_programs : List UserProgram) (now : Int) (s : Rnd) :
    ∀ sd ∈ sessionsOf (generate_realistic_workout_data uh users exercises
        programs user_programs now s).1,
      (sd.user_program_id = none ∧ sd.prog_week_index = none ∧
        sd.prog_day_of_week = none) ∨
      (∃ upid w d, sd.user_program_id = some upid ∧
        sd.prog_week_index = some w ∧ sd.prog_day_of_week = some d) := by
  intro sd hmem
  obtain ⟨_, _, h3⟩ := userLoop_inv uh exercises programs user_programs now users 0 s
  unfold generate_realistic_workout_data at hmem
  dsimp only at hmem
  rw [sessionsOf_append] at hmem
  rcases List.mem_append.mp hmem with h | h
  · rcases h3 sd h with hfree | ⟨up, _, hid, hw, hd⟩
    · exact Or.inl hfree
    · exact Or.inr ⟨up.id, _, _, hid, hw, hd⟩
  · simp [sessionsOf] at h

/-- C2: for every materialized program-based session, `prog_day_of_week` is
the weekday of `started_at`, and `prog_week_index` is the day difference
between `started_at` and the referenced assignment's `start_date`
(floored at day granularity, as Python's `timedelta.days` does), floor
divided by 7. -/
theorem generate_program_session_fields (uh : Nat → Int) (users : List User)
    (exercises : List Exercise) (programs : List Program)
    (user_programs : List UserProgram) (now : Int) (s : Rnd)
    (hnd : (user_programs.map (·.id)).Nodup) :
    ∀ sd ∈ sessionsOf (generate_realistic_workout_data uh users exercises
        programs user_programs now s).1,
    ∀ up ∈ user_programs, sd.user_program_id = some up.id →
      sd.prog_day_of_week = some (weekday sd.started_at) ∧
      sd.prog_week_index
        = some (((sd.started_at - up.start_date).fdiv 86400).fdiv 7) := by
  intro sd hmem up hup hid
  obtain ⟨_, _, h3⟩ := userLoop_inv uh exercises programs user_programs now users 0 s
  unfold generate_realistic_workout_data at hmem
  dsimp only at hmem
  rw [sessionsOf_append] at hmem
  rcases List.mem_append.mp hmem with h | h
  · rcases h3 sd h with ⟨hnone, -, -⟩ | ⟨up2, hup2, hid2, hw, hd⟩
    · rw [hnone] at hid
      cases hid
    · have hids : up2.id = up.id := by
        rw [hid2] at hid
        exact Option.some.inj hid
      have : up2 = up :=
        List.inj_on_of_nodup_map hnd hup2 hup hids
      subst this
      exact ⟨hd, hw⟩
  · simp [sessionsOf] at h

/-- A session at the head of a trace is among the trace's sessions. -/
theorem mem_sessionsOf_of_headq {tr : List Ev} {sd : Session}
    (h : tr.head? = some (Ev.sess sd)) : sd ∈ sessionsOf tr := by
  cases tr with
  | nil => cases h
  | cons a l =>
    rw [List.head?_cons, Option.some.injEq] at h
    subst h
    rw [sessionsOf_sess]
    exact List.mem_cons_self _ _

/-- C3: a draft that takes the program-based path (coin even, at least one
active assignment) whose chosen program schedules nothing for the computed
weekday is discarded entirely: no session event, no set events, and the
accepted-session counter does not advance. -/
theorem day_skip_discards_draft (ctx : Ctx) (c : Nat) (s : Rnd)
    (hcoin : draftCoinVal s % 2 = 0)
    (hups : ctx.ups ≠ [])
    (hday : (findProgram ctx.programs (draftUp ctx s).program_id).entries.filter
        (fun pe => pe.day_of_week == weekday (draftStarted ctx s)) = []) :
    (processDraft ctx c s).1 = [] ∧ (processDraft ctx c s).2.1 = c := by
  unfold draftCoinVal at hcoin
  unfold draftUp draftStarted at hday
  have hne : ctx.ups.isEmpty = false := by
    cases hE : ctx.ups with
    | nil => exact absurd hE hups
    | cons a l => rfl
  unfold processDraft
  dsimp only
  refine ⟨?_, ?_⟩ <;> simp [hcoin, hne, hday]

/-- Witness for C3: with the all-zero streams and a program whose only entry
sits on weekday 4 while the draft lands on weekday 5, the draft vanishes. -/
theorem day_skip_discards_draft_witness :
    (processDraft demoCtxOff 0 rnd0).1 = [] ∧
    (processDraft demoCtxOff 0 rnd0).2.1 = 0 :=
  day_skip_discards_draft demoCtxOff 0 rnd0 (by decide) (by decide) (by decide)

unseal Rat.add Rat.mul Rat.inv Rat.sub Rat.ofScientific in
/-- C9: the synthesizer places no lower bound on `prog_week_index`.  On the
demo world, `create_user_programs` itself produces the assignment (start
date 30 days before now, active), and the run materializes a program-based
session dated 365 days back whose `prog_week_index` is the negative value
-48. -/
theorem negative_week_index_reachable :
    demoAssignments = [demoUP0] ∧
    demoUP0.start_date = midnightOf demoNow - 30 * 86400 ∧
    demoSd ∈ sessionsOf demoTrace ∧
    demoSd.user_program_id = some demoUP0.id ∧
    demoSd.prog_week_index = some (-48) ∧
    (-48 : Int) < 0 :=
  ⟨by decide, by decide, mem_sessionsOf_of_headq (by decide), by decide,
    by decide, by decide⟩

unseal Rat.add Rat.mul Rat.inv Rat.sub Rat.ofScientific in
/-- C1 (violation witness): on a program that schedules the same exercise
twice on one day — permitted by the data model, whose only entry constraint
is on (program, day_of_week, position) — the generated run emits duplicate
`(session_id, exercise_id, set_index)` keys, breaking the uniqueness and
contiguity invariant that `uq_set_session_exercise_index` declares. -/
theorem duplicate_entry_duplicates_set_keys :
    ¬ ((setsOf demoTraceDup).map setKey).Nodup := by
  intro hnd
  have hpre : ¬ ((setsOf (demoTraceDup.take 7)).map setKey).Nodup := by decide
  exact hpre (hnd.sublist ((List.Sublist.filterMap _
    (List.take_sublist 7 demoTraceDup)).map setKey))

unseal Rat.add Rat.mul Rat.inv Rat.sub Rat.ofScientific in
/-- Witness for C2 at the demo run's first session and its assignment. -/
theorem generate_program_session_fields_witness :
    demoSd.prog_day_of_week = some (weekday demoSd.started_at) ∧
    demoSd.prog_week_index
      = some (((demoSd.started_at - demoUP0.start_date).fdiv 86400).fdiv 7) :=
  generate_program_session_fields uh0 [demoUser] [demoSquat] [demoProgram]
    demoAssignments demoNow
    (create_user_programs demoNow [demoUser] [demoProgram] rnd0).2
    (by decide) demoSd (mem_sessionsOf_of_headq (by decide)) demoUP0
    (by decide) (by decide)

unseal Rat.add Rat.mul Rat.inv Rat.sub Rat.ofScientific in
/-- Witness for C10 at the demo run's first session. -/
theorem generate_session_shape_witness :
    (demoSd.user_program_id = none ∧ demoSd.prog_week_index = none ∧
      demoSd.prog_day_of_week = none) ∨
    (∃ upid w d, demoSd.user_program_id = some upid ∧
      demoSd.prog_week_index = some w ∧ demoSd.prog_day_of_week = some d) :=
  generate_session_shape uh0 [demoUser] [demoSquat] [demoProgram]
    demoAssignments demoNow
    (create_user_programs demoNow [demoUser] [demoProgram] rnd0).2
    demoSd (mem_sessionsOf_of_headq (by decide))

end SetLog
